import Mathlib

/-!
Verification of the corrosion-zone pipeline of `src/mapa2.py`
(`create_and_export_corrosion_zones`).

The geometric core is embedded shallowly:

* points of the working (UTM, metric) plane are pairs of rationals;
* a geometry is a set of points — the idealised point set handled by the
  geometry kernel; `buffer` is the exact Minkowski buffer (all points within
  the given distance of the geometry); comparisons are made on squared
  Euclidean distances so that all arithmetic stays in `ℚ`;
* a GeoDataFrame row is modelled as its attribute columns plus its geometry;
  `gpd.overlay(zone, alagoas_utm, how='intersection')` keeps, for every
  boundary row whose geometry meets the zone, the boundary row's attributes
  together with the intersection geometry;
* `pd.concat` fails on an empty list of frames, as pandas does
  ("No objects to concatenate");
* the coordinate-reference-system bookkeeping of the script (lines 34–40,
  62 and 72–73 of `mapa2.py`) is modelled separately by `crs_trace`, which
  records the CRS tag of every participant of the buffering and clipping
  steps and of the exported result.
-/

namespace Mapa2

/-- A point of the working plane (UTM coordinates, metres). -/
abbrev Point := ℚ × ℚ

/-- Squared Euclidean distance between two points of the plane. -/
def sqDist (p q : Point) : ℚ := (p.1 - q.1) ^ 2 + (p.2 - q.2) ^ 2

/-- A geometry is the set of its points. -/
abbrev Geometry := Set Point

/-- `merged_coastline.buffer(r)` (`mapa2.py` lines 55, 57, 58): the Minkowski
buffer, i.e. all points within distance `r` of the geometry `g` (radii are
positive in every use the source makes of `buffer`). -/
def buffer (g : Geometry) (r : ℚ) : Geometry :=
  {p | ∃ q ∈ g, sqDist p q ≤ r ^ 2}

/-- `coastline_utm.geometry.union_all()` (`mapa2.py` line 51): the union of
all coastline geometries. -/
def union_all (l : List Geometry) : Geometry := l.foldr (· ∪ ·) ∅

/-- One band specification `(name, inner, outer)` (`mapa2.py` lines 43–48). -/
abbrev Band := String × ℚ × ℚ

/-- The fixed band configuration `zones_data` (`mapa2.py` lines 43–48). -/
def zones_data : List Band :=
  [("C5 - Muito Alta", 0, 2000),
   ("C4 - Alta", 2000, 5000),
   ("C3 - Média", 5000, 10000),
   ("C2 - Baixa", 10000, 20000)]

/-- The per-band zone geometry (`mapa2.py` lines 53–59): the `outer` buffer
when `inner == 0`, otherwise the set-difference of the `outer` and `inner`
buffers. -/
def zone_geom (merged : Geometry) (inner outer : ℚ) : Geometry :=
  if inner = 0 then buffer merged outer
  else buffer merged outer \ buffer merged inner

/-- The set described by the spec's Zone Builder contract: points whose planar
distance to the reference curve lies in the half-open interval
`[inner, outer)`. Written from the spec's words for comparison with
`zone_geom`: the distance to the curve is at least `inner` (every point of the
curve is at squared distance at least `inner ^ 2`) and below `outer` (some
point of the curve is at squared distance below `outer ^ 2`); radii are
nonnegative. -/
def spec_band_set (g : Geometry) (inner outer : ℚ) : Geometry :=
  {p | (∀ q ∈ g, inner ^ 2 ≤ sqDist p q) ∧ ∃ q ∈ g, sqDist p q < outer ^ 2}

/-- The origin point used as a concrete one-point reference curve. -/
def p00 : Point := (0, 0)

section BasicLemmas

lemma buffer_mono_sq (g : Geometry) {r s : ℚ} (h : r ^ 2 ≤ s ^ 2) :
    buffer g r ⊆ buffer g s := by
  rintro p ⟨q, hq, hd⟩
  exact ⟨q, hq, le_trans hd h⟩

lemma zone_geom_subset_buffer (g : Geometry) (inner outer : ℚ) :
    zone_geom g inner outer ⊆ buffer g outer := by
  unfold zone_geom
  split
  · exact fun p hp => hp
  · exact Set.diff_subset

lemma buffer_empty_geom (r : ℚ) : buffer (∅ : Geometry) r = ∅ := by
  ext p
  simp [buffer]

lemma zone_geom_empty_curve (inner outer : ℚ) :
    zone_geom (∅ : Geometry) inner outer = ∅ := by
  unfold zone_geom
  split
  · exact buffer_empty_geom outer
  · rw [buffer_empty_geom, Set.empty_diff]

lemma zone_geom_eq_empty_of_le (g : Geometry) {inner outer : ℚ}
    (h0 : 0 ≤ outer) (hle : outer ≤ inner) (hne : inner ≠ 0) :
    zone_geom g inner outer = ∅ := by
  rw [zone_geom, if_neg hne]
  exact Set.diff_eq_empty.mpr (buffer_mono_sq g (pow_le_pow_left₀ h0 hle 2))

end BasicLemmas

/-- C2. For every band whose `inner_distance` equals `0`, the zone geometry is
exactly the buffer of the reference curve at radius `outer_distance`, with no
subtraction performed (`mapa2.py` lines 54–55). -/
theorem inner_zero_zone_eq_buffer (g : Geometry) (outer : ℚ) :
    zone_geom g 0 outer = buffer g outer := by
  simp [zone_geom]

/-- C1, counterexample. The zone of the band `("C4 - Alta", 2000, 5000)`
around the one-point reference curve `{p00}` is not the half-open annulus
`[2000, 5000)` claimed by the spec: the point `(5000, 0)`, at distance exactly
`5000` from the curve, belongs to `buffer 5000 \ buffer 2000` but not to
`[2000, 5000)`. -/
theorem zone_interval_claim_counterexample :
    zone_geom {p00} 2000 5000 ≠ spec_band_set {p00} 2000 5000 := by
  intro h
  have hz : ((5000 : ℚ), (0 : ℚ)) ∈ zone_geom {p00} 2000 5000 := by
    rw [zone_geom, if_neg (by norm_num)]
    constructor
    · exact ⟨p00, rfl, by norm_num [sqDist, p00]⟩
    · rintro ⟨q, hq, hd⟩
      rw [Set.eq_of_mem_singleton hq] at hd
      norm_num [sqDist, p00] at hd
  have hs : ((5000 : ℚ), (0 : ℚ)) ∉ spec_band_set {p00} 2000 5000 := by
    rintro ⟨-, q, hq, hlt⟩
    rw [Set.eq_of_mem_singleton hq] at hlt
    norm_num [sqDist, p00] at hlt
  rw [h] at hz
  exact hs hz

/-- C1, amended. For every band with `inner_distance > 0`, the zone geometry
equals the set-difference of the Minkowski buffer at radius `outer_distance`
minus the buffer at radius `inner_distance`; as a point set this is exactly
the set of points within `outer_distance` of the reference curve and strictly
farther than `inner_distance` from every point of it — the half-open interval
`(inner_distance, outer_distance]` of distances, not `[inner, outer)`. -/
theorem zone_interval_amended (g : Geometry) (inner outer : ℚ)
    (h : 0 < inner) :
    zone_geom g inner outer = buffer g outer \ buffer g inner ∧
    zone_geom g inner outer =
      {p : Point | (∃ q ∈ g, sqDist p q ≤ outer ^ 2) ∧
        ∀ q ∈ g, inner ^ 2 < sqDist p q} := by
  have hne : inner ≠ 0 := ne_of_gt h
  refine ⟨by rw [zone_geom, if_neg hne], ?_⟩
  rw [zone_geom, if_neg hne]
  ext p
  simp [buffer, Set.mem_diff, not_exists, not_le]

/-- Witness for the amended C1 at the concrete band `(2000, 5000)` around the
one-point curve `{p00}`. -/
theorem zone_interval_amended_witness :
    (0 : ℚ) < 2000 ∧
    (zone_geom {p00} 2000 5000 = buffer {p00} 5000 \ buffer {p00} 2000 ∧
      zone_geom {p00} 2000 5000 =
        {p : Point | (∃ q ∈ ({p00} : Geometry), sqDist p q ≤ 5000 ^ 2) ∧
          ∀ q ∈ ({p00} : Geometry), 2000 ^ 2 < sqDist p q}) :=
  ⟨by norm_num, zone_interval_amended {p00} 2000 5000 (by norm_num)⟩

/-- C8. For two adjacent bands — band `i`'s `outer_distance` equal to band
`i+1`'s `inner_distance` `b` (which is positive for every band of
`zones_data`, hence nonzero) — the two zone geometries are disjoint: the first
zone lies inside `buffer g b` and the second subtracts `buffer g b` away. -/
theorem adjacent_zones_disjoint (g : Geometry) (a b c : ℚ) (h : b ≠ 0) :
    zone_geom g a b ∩ zone_geom g b c = ∅ := by
  apply Set.eq_empty_iff_forall_not_mem.mpr
  rintro p ⟨h1, h2⟩
  have hb : p ∈ buffer g b := zone_geom_subset_buffer g a b h1
  rw [zone_geom, if_neg h] at h2
  exact h2.2 hb

/-- Witness for C8 at the adjacent `zones_data` bands `(0, 2000)` and
`(2000, 5000)` around the one-point curve `{p00}`. -/
theorem adjacent_zones_disjoint_witness :
    (2000 : ℚ) ≠ 0 ∧
    zone_geom {p00} 0 2000 ∩ zone_geom {p00} 2000 5000 = ∅ :=
  ⟨by norm_num, adjacent_zones_disjoint {p00} 0 2000 5000 (by norm_num)⟩

/-- C10. The band configuration `zones_data` is a fixed list of exactly four
bands, with strictly increasing inner distances, first inner distance `0`, and
each band's `outer_distance` equal to the next band's `inner_distance`. -/
theorem zones_data_well_formed :
    zones_data.length = 4 ∧
    zones_data.Chain' (fun b₁ b₂ => b₁.2.1 < b₂.2.1 ∧ b₁.2.2 = b₂.2.1) ∧
    zones_data.head?.map (fun b => b.2.1) = some 0 := by
  refine ⟨rfl, ?_, rfl⟩
  norm_num [zones_data, List.chain'_cons]

/-- One row (feature) of the boundary GeoDataFrame `alagoas_utm`: its
attribute columns (e.g. `SIGLA_UF`) and its geometry. -/
structure Feature where
  attrs : List (String × String)
  geom : Geometry

/-- One row of the final zones GeoDataFrame: the `Zone` label assigned on
line 66 of `mapa2.py`, the attribute columns inherited from the boundary by
the overlay, and the clipped geometry. -/
structure Row where
  zone : String
  attrs : List (String × String)
  geom : Geometry

open Classical in
/-- `gpd.overlay(zone_frame, alagoas_utm, how='intersection')` (`mapa2.py`
line 63), for a zone frame holding the single geometry `z`: for every boundary
row whose geometry meets `z`, the result holds the boundary row's attributes
together with the intersection geometry; non-intersecting rows produce no
output row. -/
noncomputable def overlay_rows (z : Geometry) : List Feature → List Feature
  | [] => []
  | f :: rest =>
    if (z ∩ f.geom).Nonempty
    then ⟨f.attrs, z ∩ f.geom⟩ :: overlay_rows z rest
    else overlay_rows z rest

/-- The per-band loop of `mapa2.py` lines 53–67: for each band, build the zone
geometry, clip it against the boundary rows, and — when the clipped frame is
not empty — assign the `Zone` label and append the frame to `zones_list`. -/
noncomputable def zones_list (merged : Geometry) (boundary : List Feature) :
    List Band → List (List Row)
  | [] => []
  | (name, inner, outer) :: rest =>
    if (overlay_rows (zone_geom merged inner outer) boundary).isEmpty
    then zones_list merged boundary rest
    else ((overlay_rows (zone_geom merged inner outer) boundary).map
        fun f => ⟨name, f.attrs, f.geom⟩) :: zones_list merged boundary rest

/-- `pd.concat(zones_list, ignore_index=True)` (`mapa2.py` line 70): pandas
raises `ValueError("No objects to concatenate")` on an empty list of frames,
and otherwise concatenates the rows in order. -/
def pd_concat (l : List (List Row)) : Except String (List Row) :=
  if l.isEmpty then Except.error "No objects to concatenate" else Except.ok l.flatten

/-- The zone-construction core of `create_and_export_corrosion_zones`
(`mapa2.py` lines 50–70), over the already-reprojected coastline geometries
and boundary rows; the band list is the loop's iteration source (the script
passes the constant `zones_data`). -/
noncomputable def create_zones (coastline_utm : List Geometry)
    (alagoas_utm : List Feature) (bands : List Band) : Except String (List Row) :=
  pd_concat (zones_list (union_all coastline_utm) alagoas_utm bands)

section PipelineLemmas

lemma overlay_rows_empty_left (boundary : List Feature) :
    overlay_rows ∅ boundary = [] := by
  induction boundary with
  | nil => rfl
  | cons f rest ih =>
    rw [overlay_rows, if_neg, ih]
    rintro ⟨x, hx, -⟩
    exact hx

lemma mem_overlay_rows {z : Geometry} {boundary : List Feature} {f : Feature}
    (hf : f ∈ overlay_rows z boundary) :
    f.geom.Nonempty ∧ ∃ f₀ ∈ boundary, f.attrs = f₀.attrs ∧ f.geom = z ∩ f₀.geom := by
  induction boundary with
  | nil => simp [overlay_rows] at hf
  | cons b rest ih =>
    rw [overlay_rows] at hf
    split at hf
    · rcases List.mem_cons.mp hf with h | h
      · subst h
        exact ⟨by assumption, b, List.mem_cons_self b rest, rfl, rfl⟩
      · obtain ⟨hne, f₀, hf₀, ha, hg⟩ := ih h
        exact ⟨hne, f₀, List.mem_cons_of_mem b hf₀, ha, hg⟩
    · obtain ⟨hne, f₀, hf₀, ha, hg⟩ := ih hf
      exact ⟨hne, f₀, List.mem_cons_of_mem b hf₀, ha, hg⟩

lemma mem_zones_list_join {merged : Geometry} {boundary : List Feature}
    {bands : List Band} {r : Row} (hr : r ∈ (zones_list merged boundary bands).flatten) :
    ∃ b ∈ bands, ∃ f ∈ overlay_rows (zone_geom merged b.2.1 b.2.2) boundary,
      r = ⟨b.1, f.attrs, f.geom⟩ := by
  induction bands with
  | nil => simp [zones_list] at hr
  | cons b rest ih =>
    obtain ⟨name, inner, outer⟩ := b
    rw [zones_list] at hr
    split at hr
    · obtain ⟨b', hb', f, hfo, hrf⟩ := ih hr
      exact ⟨b', List.mem_cons_of_mem _ hb', f, hfo, hrf⟩
    · rw [List.flatten, List.mem_append] at hr
      rcases hr with h | h
      · obtain ⟨f, hfo, hrf⟩ := List.mem_map.mp h
        exact ⟨(name, inner, outer), List.mem_cons_self _ rest, f, hfo, hrf.symm⟩
      · obtain ⟨b', hb', f, hfo, hrf⟩ := ih h
        exact ⟨b', List.mem_cons_of_mem _ hb', f, hfo, hrf⟩

lemma zones_list_empty_curve (boundary : List Feature) (bands : List Band) :
    zones_list ∅ boundary bands = [] := by
  induction bands with
  | nil => rfl
  | cons b rest ih =>
    obtain ⟨name, inner, outer⟩ := b
    rw [zones_list, zone_geom_empty_curve, overlay_rows_empty_left]
    simpa using ih

lemma create_zones_empty_geom (boundary : List Feature) (bands : List Band) :
    create_zones [∅] boundary bands = Except.error "No objects to concatenate" := by
  rw [create_zones]
  have h : union_all [∅] = (∅ : Geometry) := Set.empty_union ∅
  rw [h, zones_list_empty_curve]
  rfl

lemma create_zones_ok_rows {coast : List Geometry} {boundary : List Feature}
    {bands : List Band} {rows : List Row}
    (h : create_zones coast boundary bands = Except.ok rows) :
    rows = (zones_list (union_all coast) boundary bands).flatten := by
  rw [create_zones, pd_concat] at h
  split at h
  · exact absurd h (by simp)
  · injection h with h
    exact h.symm

end PipelineLemmas

/-- A CRS-tagged GeoDataFrame: the coordinate-reference-system identifier and
the geometries. `to_crs` retags; the coordinate transformation itself belongs
to the projection library, and only the tags matter to the CRS invariants
modelled here. -/
structure GeoFrame where
  crs : String
  geoms : List Geometry

/-- `frame.to_crs(c)` (`mapa2.py` lines 35, 39, 40, 73) at the CRS-tag
level. -/
def GeoFrame.to_crs (f : GeoFrame) (c : String) : GeoFrame := ⟨c, f.geoms⟩

/-- The metric working CRS, `utm_crs = "EPSG:32724"` (`mapa2.py` line 38). -/
def utm_crs : String := "EPSG:32724"

/-- The geographic CRS used for export (`mapa2.py` line 73). -/
def export_crs : String := "EPSG:4326"

/-- Whether a CRS occurring in the program is a linear (metric) projection:
`EPSG:32724` is UTM zone 24S in metres (source comment on line 37, UTM chosen
"para trabalhar com metros"), while `EPSG:4326` (WGS 84, line 72) is a
geographic, degree-based system. -/
def is_linear_crs (c : String) : Bool := c == "EPSG:32724"

/-- The CRS tags observed at the buffering, clipping and export steps of one
run of the pipeline. -/
structure CrsTrace where
  buffer_crs : String
  clip_zone_crs : String
  clip_boundary_crs : String
  export_out_crs : String

/-- CRS dataflow of `create_and_export_corrosion_zones` (`mapa2.py` lines
34–40, 62–63 and 72–73): align the coastline with the boundary's CRS if they
differ (lines 34–35), reproject both to `utm_crs` before any buffering (lines
39–40), build each per-band zone frame with `crs=utm_crs` (line 62), clip it
against `alagoas_utm` (line 63), and reproject the assembled zones to
`EPSG:4326` for export (line 73). -/
def crs_trace (coastline alagoas : GeoFrame) : CrsTrace :=
  let coastline₀ := if coastline.crs ≠ alagoas.crs
    then coastline.to_crs alagoas.crs else coastline
  let coastline_utm := coastline₀.to_crs utm_crs
  let alagoas_utm := alagoas.to_crs utm_crs
  { buffer_crs := coastline_utm.crs
    clip_zone_crs := utm_crs
    clip_boundary_crs := alagoas_utm.crs
    export_out_crs := ((⟨utm_crs, []⟩ : GeoFrame).to_crs export_crs).crs }

/-- C6. In every run, the geometry being buffered and both sides of the clip
share the single linear (metric) projection `utm_crs`, into which the
reference curve and the boundary are reprojected before any buffering, and the
final zone collection is reprojected to the geographic system `EPSG:4326`
before export. -/
theorem crs_gate_invariant (coastline alagoas : GeoFrame) :
    (crs_trace coastline alagoas).buffer_crs = utm_crs ∧
    (crs_trace coastline alagoas).clip_zone_crs = utm_crs ∧
    (crs_trace coastline alagoas).clip_boundary_crs = utm_crs ∧
    is_linear_crs utm_crs = true ∧
    (crs_trace coastline alagoas).export_out_crs = export_crs ∧
    is_linear_crs export_crs = false := by
  refine ⟨rfl, rfl, rfl, by decide, rfl, by decide⟩

/-- The attribute columns of the boundary row used in concrete runs
(`alagoas` carries the IBGE attribute `SIGLA_UF = "AL"`). -/
def attrs_AL : List (String × String) := [("SIGLA_UF", "AL")]

/-- A point far from the coastline used in concrete runs: distance
`10^9` metres from `p00`, beyond every band's `outer_distance`. -/
def far_pt : Point := (1000000000, 0)

section ConcreteRuns

lemma p00_mem_buffer (o : ℚ) : p00 ∈ buffer (union_all [{p00}]) o := by
  refine ⟨p00, by simp [union_all], ?_⟩
  have h : sqDist p00 p00 = 0 := by norm_num [sqDist, p00]
  rw [h]
  exact sq_nonneg o

lemma overlay_rows_univ (z : Geometry) (hz : z.Nonempty)
    (a : List (String × String)) :
    overlay_rows z [⟨a, Set.univ⟩] = [⟨a, z ∩ Set.univ⟩] := by
  rw [overlay_rows, if_pos (by rw [Set.inter_univ]; exact hz), overlay_rows]

lemma far_not_in_zone (inner outer : ℚ) (h0 : 0 ≤ outer) (h : outer ≤ 20000) :
    ¬ (zone_geom (union_all [{p00}]) inner outer ∩ ({far_pt} : Geometry)).Nonempty := by
  rintro ⟨x, hxz, hxf⟩
  rw [Set.mem_singleton_iff] at hxf
  subst hxf
  obtain ⟨q, hq, hd⟩ := zone_geom_subset_buffer _ inner outer hxz
  have hq' : q = p00 := by simpa [union_all] using hq
  subst hq'
  have hsq : sqDist far_pt p00 = 1000000000000000000 := by
    norm_num [sqDist, far_pt, p00]
  rw [hsq] at hd
  have hsmall : outer ^ 2 ≤ 20000 ^ 2 := pow_le_pow_left₀ h0 h 2
  have : (1000000000000000000 : ℚ) ≤ 20000 ^ 2 := le_trans hd hsmall
  norm_num at this

lemma overlay_rows_single_far (inner outer : ℚ) (h0 : 0 ≤ outer)
    (h : outer ≤ 20000) :
    overlay_rows (zone_geom (union_all [{p00}]) inner outer)
      [⟨attrs_AL, {far_pt}⟩] = [] := by
  rw [overlay_rows, if_neg (far_not_in_zone inner outer h0 h), overlay_rows]

lemma run_single_band_ok :
    create_zones [{p00}] [⟨attrs_AL, Set.univ⟩] [("Z", 0, 1)]
      = Except.ok [⟨"Z", attrs_AL, zone_geom (union_all [{p00}]) 0 1 ∩ Set.univ⟩] := by
  have hz : (zone_geom (union_all [{p00}]) 0 1).Nonempty :=
    ⟨p00, by rw [zone_geom, if_pos rfl]; exact p00_mem_buffer 1⟩
  rw [create_zones, zones_list, overlay_rows_univ _ hz attrs_AL]
  simp only [List.isEmpty_cons, Bool.false_eq_true, if_false, List.map_cons,
    List.map_nil, zones_list]
  rfl

end ConcreteRuns

/-- C3, counterexample. The pipeline performs no band validation: run with a
band list containing the invalid band `("X", 5, 3)` (outer below inner), the
run completes normally — no `InvalidBandError` exists in the code, the invalid
band is buffered like any other, yields an empty difference, and is silently
skipped. -/
theorem invalid_band_runs_without_error :
    create_zones [{p00}] [⟨attrs_AL, Set.univ⟩] [("OK", 0, 10), ("X", 5, 3)]
      = Except.ok [⟨"OK", attrs_AL, zone_geom (union_all [{p00}]) 0 10 ∩ Set.univ⟩] := by
  have hz : (zone_geom (union_all [{p00}]) 0 10).Nonempty :=
    ⟨p00, by rw [zone_geom, if_pos rfl]; exact p00_mem_buffer 10⟩
  rw [create_zones, zones_list, overlay_rows_univ _ hz attrs_AL]
  simp only [List.isEmpty_cons, Bool.false_eq_true, if_false, List.map_cons,
    List.map_nil]
  rw [zones_list, @zone_geom_eq_empty_of_le (union_all [{p00}]) 5 3
    (by norm_num) (by norm_num) (by norm_num), overlay_rows_empty_left]
  simp only [List.isEmpty_nil, if_true, zones_list]
  rfl

/-- C3, amended. A band specification with `outer_distance ≤ inner_distance`
(distances nonnegative, `inner ≠ 0`) is not rejected — the code contains no
configuration-time validation and no `InvalidBandError` — its zone geometry is
simply the empty set-difference `buffer(outer) − buffer(inner)`, which the
empty-clip filter then silently drops. -/
theorem invalid_band_yields_empty_zone (g : Geometry) (inner outer : ℚ)
    (h0 : 0 ≤ outer) (hle : outer ≤ inner) (hne : inner ≠ 0) :
    zone_geom g inner outer = ∅ :=
  zone_geom_eq_empty_of_le g h0 hle hne

/-- Witness for the amended C3 at the invalid band `(inner, outer) = (5, 3)`
around the one-point curve `{p00}`. -/
theorem invalid_band_yields_empty_zone_witness :
    ((0 : ℚ) ≤ 3 ∧ (3 : ℚ) ≤ 5 ∧ (5 : ℚ) ≠ 0) ∧ zone_geom {p00} 5 3 = ∅ :=
  ⟨⟨by norm_num, by norm_num, by norm_num⟩,
    invalid_band_yields_empty_zone {p00} 5 3 (by norm_num) (by norm_num)
      (by norm_num)⟩

/-- C4. With a boundary disjoint from every buffered zone (a boundary row
whose geometry is the far point `far_pt`, at distance `10^9` m from the
one-point coastline `{p00}`), every per-band clip of `zones_data` is empty and
skipped, `zones_list` stays empty, and `pd.concat` then raises
`ValueError("No objects to concatenate")`: the run errors instead of
completing with an empty zone collection. -/
theorem disjoint_boundary_concat_error :
    create_zones [{p00}] [⟨attrs_AL, {far_pt}⟩] zones_data
      = Except.error "No objects to concatenate" := by
  rw [create_zones, zones_data]
  rw [zones_list, overlay_rows_single_far 0 2000 (by norm_num) (by norm_num)]
  simp only [List.isEmpty_nil, if_true]
  rw [zones_list, overlay_rows_single_far 2000 5000 (by norm_num) (by norm_num)]
  simp only [List.isEmpty_nil, if_true]
  rw [zones_list, overlay_rows_single_far 5000 10000 (by norm_num) (by norm_num)]
  simp only [List.isEmpty_nil, if_true]
  rw [zones_list, overlay_rows_single_far 10000 20000 (by norm_num) (by norm_num)]
  simp only [List.isEmpty_nil, if_true, zones_list]
  rfl

/-- C5, counterexample. With a coastline collection containing one empty
geometry — a malformed input named by the claim — no `InvalidGeometryError` is
raised before buffering (no such error exists in the code): the Geometry Merge
step succeeds, the merged reference curve is the empty geometry, buffering
proceeds on it and every per-band zone is empty, and the run fails only at
assembly with pandas' concatenation error. -/
theorem malformed_input_no_invalid_geometry_error :
    union_all [∅] = (∅ : Geometry) ∧
    create_zones [∅] [⟨attrs_AL, Set.univ⟩] zones_data
      = Except.error "No objects to concatenate" :=
  ⟨Set.empty_union ∅, create_zones_empty_geom _ _⟩

/-- C5, amended. The code defines no `InvalidGeometryError` and performs no
validity check at merge time: a coastline collection containing an empty
geometry is not rejected — the merge succeeds and yields the empty reference
curve, every band's buffer and zone are then empty, every clip is skipped, and
the run fails only at the assembly step with pandas'
`ValueError("No objects to concatenate")` — after buffering, not before. -/
theorem empty_geometry_input_runs_to_concat_error (boundary : List Feature)
    (bands : List Band) :
    create_zones [∅] boundary bands = Except.error "No objects to concatenate" :=
  create_zones_empty_geom boundary bands

/-- C7. Whenever the run assembles a zone collection, every entry has a
nonempty geometry (empty clip results are dropped before rows are formed) and
every entry's `Zone` label is one of the band labels supplied as input. -/
theorem zone_rows_nonempty_and_labelled (coast : List Geometry)
    (boundary : List Feature) (bands : List Band) (rows : List Row)
    (h : create_zones coast boundary bands = Except.ok rows) :
    ∀ r ∈ rows, r.geom.Nonempty ∧ r.zone ∈ bands.map (fun b => b.1) := by
  intro r hr
  rw [create_zones_ok_rows h] at hr
  obtain ⟨b, hb, f, hf, hrf⟩ := mem_zones_list_join hr
  obtain ⟨hne, -⟩ := mem_overlay_rows hf
  subst hrf
  exact ⟨hne, List.mem_map.mpr ⟨b, hb, rfl⟩⟩

/-- Witness for C7 on the concrete successful run `run_single_band_ok`. -/
theorem zone_rows_nonempty_and_labelled_witness :
    (⟨"Z", attrs_AL, zone_geom (union_all [{p00}]) 0 1 ∩ Set.univ⟩ : Row).geom.Nonempty ∧
    (⟨"Z", attrs_AL, zone_geom (union_all [{p00}]) 0 1 ∩ Set.univ⟩ : Row).zone
      ∈ ([("Z", (0 : ℚ), (1 : ℚ))] : List Band).map (fun b => b.1) :=
  zone_rows_nonempty_and_labelled [{p00}] [⟨attrs_AL, Set.univ⟩]
    [("Z", 0, 1)] _ run_single_band_ok _ (List.mem_singleton.mpr rfl)

/-- C9. Whenever the run assembles a zone collection, every entry carries the
attribute columns of one of the boundary rows: the clip is an
attribute-merging overlay intersection, so the boundary dataset's columns
(e.g. `SIGLA_UF`) appear on every output row alongside the `Zone` label and
the geometry. -/
theorem zone_rows_carry_boundary_attrs (coast : List Geometry)
    (boundary : List Feature) (bands : List Band) (rows : List Row)
    (h : create_zones coast boundary bands = Except.ok rows) :
    ∀ r ∈ rows, ∃ f₀ ∈ boundary, r.attrs = f₀.attrs := by
  intro r hr
  rw [create_zones_ok_rows h] at hr
  obtain ⟨b, hb, f, hf, hrf⟩ := mem_zones_list_join hr
  obtain ⟨-, f₀, hf₀, ha, -⟩ := mem_overlay_rows hf
  subst hrf
  exact ⟨f₀, hf₀, ha⟩

/-- Witness for C9 on the concrete successful run `run_single_band_ok`. -/
theorem zone_rows_carry_boundary_attrs_witness :
    ∃ f₀ ∈ ([⟨attrs_AL, Set.univ⟩] : List Feature),
      (⟨"Z", attrs_AL, zone_geom (union_all [{p00}]) 0 1 ∩ Set.univ⟩ : Row).attrs
        = f₀.attrs :=
  zone_rows_carry_boundary_attrs [{p00}] [⟨attrs_AL, Set.univ⟩]
    [("Z", 0, 1)] _ run_single_band_ok _ (List.mem_singleton.mpr rfl)

end Mapa2
